import Mathlib

/-!
Verification development for the SIEM streaming pipeline
(`services/filter`, `services/normalizer`, `services/stream_corr`,
`services/writer`). Each Python worker function that the checked
properties mention is embedded shallowly as an executable Lean
definition; machine floats (wall-clock times, sliding-window scores)
are modelled as rationals, Python dicts as ordered association lists
with replace-or-append update semantics, and fallible Python calls as
`Except` / `Option` values.
-/

/-! ### Python dict model

An ordered association list with the update semantics of a Python
dict: assigning to an existing key replaces its value in place
(keeping insertion order), assigning to a fresh key appends. -/

def dictGet {κ α : Type} [DecidableEq κ] : List (κ × α) → κ → Option α
  | [], _ => none
  | (k0, v) :: rest, k => if k0 = k then some v else dictGet rest k

def dictSet {κ α : Type} [DecidableEq κ] : List (κ × α) → κ → α → List (κ × α)
  | [], k, v => [(k, v)]
  | (k0, v0) :: rest, k, v =>
      if k0 = k then (k0, v) :: rest else (k0, v0) :: dictSet rest k v

/-- Events on the Redis streams are flat maps from string field names to
string values (`decode_responses=True`). -/
abbrev Event : Type := List (String × String)

/-- The single-quote character, written via its code point. -/
def quoteChar : Char := Char.ofNat 39

/-- A one-character string holding a single quote. -/
def quoteStr : String := String.mk [quoteChar]

/-- Wrap a string in single quotes (for building DSL test inputs). -/
def quoted (s : String) : String := quoteStr ++ s ++ quoteStr

deriving instance DecidableEq for Except

namespace FilterCore

/-! ### services/filter/filter_core.py — tokens and AST -/

/-- Tokens of the filter mini-DSL (`_tokenize`): NAME, STRING, OP
(`==` / `!=`), AND, OR. -/
inductive Tok : Type where
  | name (s : String)
  | str (s : String)
  | op (s : String)
  | tand
  | tor
deriving DecidableEq

/-- AST of the filter mini-DSL: `("cmp", field, op, value)`,
`("and", l, r)`, `("or", l, r)`. -/
inductive Ast : Type where
  | cmp (field op val : String)
  | band (l r : Ast)
  | bor (l r : Ast)
deriving DecidableEq

/-- Characters that may start a NAME token: `[A-Za-z0-9_]`. -/
def isNameStart (c : Char) : Bool := c.isAlpha || c.isDigit || c == '_'

/-- Characters that may continue a NAME token: `[A-Za-z0-9_.]`. -/
def isNameChar (c : Char) : Bool := isNameStart c || c == '.'

/-- ASCII whitespace as recognised by Python `str.isspace`. -/
def isPySpace (c : Char) : Bool :=
  c == ' ' || c == '\t' || c == '\n' || c == '\r' || c == '\x0b' || c == '\x0c'

/-- Scan the body of a single-quoted string literal: returns the
characters up to the closing quote and the remainder, or `none` when
the literal is unterminated. -/
def scanStr : List Char → Option (List Char × List Char)
  | [] => none
  | c :: rest =>
      if c = quoteChar then some ([], rest)
      else (scanStr rest).map (fun p => (c :: p.1, p.2))

/-- One fuel unit is spent per token or skipped character, so fuel
`length + 1` always suffices; the `_tokenize` loop of the source scans
the expression left to right. Error messages keep the stable prefix of
the Python exception text (dynamic position info elided). -/
def tokenizeAux : Nat → List Char → Except String (List Tok)
  | 0, _ => .error "Out of fuel"
  | _, [] => .ok []
  | fuel + 1, c :: cs =>
      if isPySpace c then tokenizeAux fuel cs
      else if c = '=' then
        match cs with
        | '=' :: rest => (tokenizeAux fuel rest).map (fun ts => Tok.op "==" :: ts)
        | _ => .error "Unexpected character in expr"
      else if c = '!' then
        match cs with
        | '=' :: rest => (tokenizeAux fuel rest).map (fun ts => Tok.op "!=" :: ts)
        | _ => .error "Unexpected character in expr"
      else if c = quoteChar then
        match scanStr cs with
        | none => .error "Unterminated string literal in filter expr"
        | some (buf, rest) =>
            (tokenizeAux fuel rest).map (fun ts => Tok.str (String.mk buf) :: ts)
      else if isNameStart c then
        let nm := String.mk (c :: cs.takeWhile isNameChar)
        let rest := cs.dropWhile isNameChar
        if nm = "and" then (tokenizeAux fuel rest).map (fun ts => Tok.tand :: ts)
        else if nm = "or" then (tokenizeAux fuel rest).map (fun ts => Tok.tor :: ts)
        else (tokenizeAux fuel rest).map (fun ts => Tok.name nm :: ts)
      else .error "Unexpected character in expr"

/-- `_tokenize` of filter_core.py. -/
def tokenize (s : String) : Except String (List Tok) :=
  tokenizeAux (s.data.length + 1) s.data

/-- The inner `parse_cmp` of `parse_expr`: consumes exactly three
tokens `NAME OP STRING`. -/
def parseCmp (toks : List Tok) : Except String (Ast × List Tok) :=
  match toks with
  | t1 :: t2 :: t3 :: rest =>
      match t1 with
      | Tok.name f =>
          match t2 with
          | Tok.op o =>
              if o = "==" ∨ o = "!=" then
                match t3 with
                | Tok.str v => .ok (Ast.cmp f o v, rest)
                | _ => .error "Expected string literal in comparison"
              else .error "Expected == or != in comparison"
          | _ => .error "Expected == or != in comparison"
      | _ => .error "Expected field name in comparison"
  | _ => .error "Invalid comparison in expr"

/-- The `while` loop of `parse_expr_inner`: as long as the next token
is AND or OR, consume it, parse one comparison and fold it onto the
left, with no precedence distinction. One fuel unit per iteration;
fuel bounded below by the token count always suffices. -/
def parseLoop : Nat → Ast → List Tok → Except String (Ast × List Tok)
  | fuel, acc, toks =>
      match toks with
      | [] => .ok (acc, [])
      | Tok.tand :: rest =>
          match fuel with
          | 0 => .error "Out of fuel"
          | fuel + 1 =>
              match parseCmp rest with
              | .error e => .error e
              | .ok (r, rest2) => parseLoop fuel (Ast.band acc r) rest2
      | Tok.tor :: rest =>
          match fuel with
          | 0 => .error "Out of fuel"
          | fuel + 1 =>
              match parseCmp rest with
              | .error e => .error e
              | .ok (r, rest2) => parseLoop fuel (Ast.bor acc r) rest2
      | _ => .ok (acc, toks)

/-- `parse_expr` on an already tokenized input: empty token list is an
error, then one comparison, the binop loop, and a trailing-token
check. -/
def parseToks (toks : List Tok) : Except String Ast :=
  if toks.isEmpty then .error "Empty expr"
  else
    match parseCmp toks with
    | .error e => .error e
    | .ok (left, rest) =>
        match parseLoop rest.length left rest with
        | .error e => .error e
        | .ok (ast, rest2) =>
            if rest2.isEmpty then .ok ast
            else .error "Unexpected tokens at end of expr"

/-- `parse_expr` of filter_core.py. -/
def parse_expr (s : String) : Except String Ast :=
  match tokenize s with
  | .error e => .error e
  | .ok toks => parseToks toks

/-- Grammar predicate, written from the spec grammar
`expr := cmp ((and | or) cmp)*` with `cmp := NAME (== | !=) STRING`:
the token lists on which a parse should succeed. -/
def chainToks : List Tok → Bool
  | Tok.name _ :: Tok.op o :: Tok.str _ :: rest =>
      (o == "==" || o == "!=") &&
      (match rest with
       | [] => true
       | Tok.tand :: rest2 => chainToks rest2
       | Tok.tor :: rest2 => chainToks rest2
       | _ => false)
  | _ => false

/-- Continuation form of the grammar predicate: what may follow a
complete comparison. -/
def chainRest : List Tok → Bool
  | [] => true
  | Tok.tand :: rest => chainToks rest
  | Tok.tor :: rest => chainToks rest
  | _ => false

/-- `_get_field_value`: the whole dotted name is looked up as a flat
key; a missing key yields the empty string. -/
def get_field_value (event : Event) (field : String) : String :=
  (dictGet event field).getD ""

/-- `eval_expr` on a non-null AST. -/
def evalAst : Ast → Event → Bool
  | Ast.cmp field o v, e =>
      let actual := get_field_value e field
      if o = "==" then actual == v
      else if o = "!=" then actual != v
      else false
  | Ast.band l r, e => evalAst l e && evalAst r e
  | Ast.bor l r, e => evalAst l e || evalAst r e

/-- `eval_expr` of filter_core.py: a null AST never matches. -/
def eval_expr (ast : Option Ast) (event : Event) : Bool :=
  match ast with
  | none => false
  | some a => evalAst a event

/-- `FilterRule` of filter_core.py. -/
structure FilterRule : Type where
  id : Int
  name : String
  description : String
  priority : Int
  action : String
  tags : List String
  expr_text : String
  expr_ast : Option Ast
deriving DecidableEq

/-- One row of `siem.filter_rules` as returned by the rule query
(enabled rules, ordered by priority then id). -/
structure RuleRow : Type where
  id : Int
  name : String
  description : String
  priority : Int
  expr : String
  action : String
  tags : List String
deriving DecidableEq

/-- `load_filter_rules`, modulo the ClickHouse transport: for each row
the expression is parsed when non-empty; a parse failure is caught and
leaves only that rule with a null AST, the rule itself is appended
regardless. -/
def load_filter_rules (rows : List RuleRow) : List FilterRule :=
  rows.foldl
    (fun acc row =>
      acc ++ [{ id := row.id, name := row.name, description := row.description,
                priority := row.priority, action := row.action, tags := row.tags,
                expr_text := row.expr,
                expr_ast := if row.expr ≠ "" then (parse_expr row.expr).toOption
                            else none }])
    []

end FilterCore

namespace FilterCore

/-- Build the AST node corresponding to a binary-operator token. -/
def binOf (t : Tok) (l r : Ast) : Ast :=
  match t with
  | Tok.tand => Ast.band l r
  | Tok.tor => Ast.bor l r
  | _ => l

/-- The spec scenario expression
`event.provider == 'http_json' and event.category == 'test'`. -/
def exprExample : String :=
  "event.provider == " ++ quoted "http_json" ++ " and event.category == " ++
    quoted "test"

end FilterCore

namespace FilterWorker
open FilterCore

/-! ### services/filter/worker.py -/

/-- Comma-join of a tag list, Python `",".join(tags)`. -/
def joinTags (tags : List String) : String := String.intercalate "," tags

/-- The post-loop tail of `FilterWorker.apply_rules`: if any tags
accumulated, write the `tags` field (appending to a truthy pre-existing
value with a comma) and return `tag`, else return `pass`. -/
def finish_tags (result : Event) (tags : List String) : String × Event :=
  if tags.isEmpty then ("pass", result)
  else
    match dictGet result "tags" with
    | some ex =>
        if ex ≠ "" then ("tag", dictSet result "tags" (ex ++ "," ++ joinTags tags))
        else ("tag", dictSet result "tags" (joinTags tags))
    | none => ("tag", dictSet result "tags" (joinTags tags))

/-- The rule loop of `FilterWorker.apply_rules`: skip null ASTs, skip
non-matching rules, return `drop` immediately, stop on `tag` (taking
the tags) and on `pass`; matched rules with any other action fall
through to the next rule. -/
def apply_rules_go (event : Event) : List FilterRule → List String → String × Event
  | [], tags => finish_tags event tags
  | r :: rest, tags =>
      match r.expr_ast with
      | none => apply_rules_go event rest tags
      | some a =>
          if evalAst a event then
            if r.action = "drop" then ("drop", event)
            else if r.action = "tag" then finish_tags event (tags ++ r.tags)
            else if r.action = "pass" then finish_tags event tags
            else apply_rules_go event rest tags
          else apply_rules_go event rest tags

/-- `FilterWorker.apply_rules` of services/filter/worker.py. -/
def apply_rules (rules : List FilterRule) (event : Event) : String × Event :=
  apply_rules_go event rules []

/-- A rule halts the filter loop on this event when its AST is
non-null, its expression matches, and its action is one of
drop / tag / pass. -/
def rule_halts (r : FilterRule) (event : Event) : Bool :=
  match r.expr_ast with
  | none => false
  | some a =>
      evalAst a event &&
        (r.action == "drop" || r.action == "tag" || r.action == "pass")

/-- Priority-1 tag rule carrying tag `a`, spec scenarios 3 and 4. -/
def tagRuleA : FilterRule :=
  { id := 1, name := "r1", description := "", priority := 1, action := "tag",
    tags := ["a"], expr_text := "", expr_ast := some (Ast.cmp "x" "==" "1") }

/-- Priority-2 tag rule carrying tag `b`, spec scenario 3. -/
def tagRuleB : FilterRule :=
  { id := 2, name := "r2", description := "", priority := 2, action := "tag",
    tags := ["b"], expr_text := "", expr_ast := some (Ast.cmp "x" "==" "1") }

/-- Priority-2 drop rule matching the same events, spec scenario 4. -/
def dropRuleB : FilterRule :=
  { id := 2, name := "r2", description := "", priority := 2, action := "drop",
    tags := [], expr_text := "", expr_ast := some (Ast.cmp "x" "==" "1") }

end FilterWorker

namespace NormalizerCore

/-! ### services/normalizer/normalizer_core.py -/

/-- Raw events from the RAW stream: flat string-to-string maps. -/
abbrev RawEvent : Type := List (String × String)

/-- The UEM dict under construction: values may be null (a failed or
null-yielding mapping expression). -/
abbrev UEM : Type := List (String × Option String)

/-- `NormalizerRule` of normalizer_core.py. A compiled JMESPath
expression is embedded as its evaluation function: on any raw event it
yields a string value or null (the worker catches evaluation errors and
stores null, so evaluation is total). -/
structure NormalizerRule : Type where
  id : Int
  priority : Int
  source_type : String
  event_matcher_expr : String
  compiled_mapping : List (String × (RawEvent → Option String))

/-- Python truthiness test used by the default logic:
`field not in uem or uem.get(field) in (None, "")`. -/
def needs_default (v : Option (Option String)) : Bool :=
  match v with
  | none => true
  | some none => true
  | some (some s) => s == ""

/-- The mapping loop of `apply_rules`: each `(uem_field, expr)` entry
is evaluated against the raw event and stored. -/
def apply_mapping (rule : NormalizerRule) (raw : RawEvent) : UEM :=
  rule.compiled_mapping.foldl (fun u p => dictSet u p.1 (p.2 raw)) []

/-- Python `str(raw_event)` for a dict of strings (repr escaping of
special characters inside keys and values is elided; only the
enclosing braces matter to the properties below). -/
def py_str_raw (raw : RawEvent) : String :=
  "\x7b" ++
    String.intercalate ", "
      (raw.map (fun p => quoteStr ++ p.1 ++ quoteStr ++ ": " ++ quoteStr ++ p.2 ++ quoteStr)) ++
    "\x7d"

/-- The defaults block of `apply_rules`: `event.provider` falls back to
`raw.get("source_type", "") or ""`; `event.original` falls back to
`raw.get("message", "") or ""` when the `message` key exists, else to
`str(raw_event)`. -/
def norm_defaults (uem : UEM) (raw : RawEvent) : UEM :=
  let uem1 :=
    if needs_default (dictGet uem "event.provider") then
      dictSet uem "event.provider" (some ((dictGet raw "source_type").getD ""))
    else uem
  if needs_default (dictGet uem1 "event.original") then
    if (dictGet raw "message").isSome then
      dictSet uem1 "event.original" (some ((dictGet raw "message").getD ""))
    else dictSet uem1 "event.original" (some (py_str_raw raw))
  else uem1

/-- `apply_rules` of normalizer_core.py: `None` when no rules are
loaded, else the first rule is applied unconditionally
(`event_matcher` is not evaluated). -/
def apply_rules (rules : List NormalizerRule) (raw : RawEvent) : Option UEM :=
  match rules with
  | [] => none
  | rule :: _ => some (norm_defaults (apply_mapping rule raw) raw)

/-- A rule with an empty `uem_mapping`, as in spec scenario 1. -/
def emptyMappingRule : NormalizerRule :=
  { id := 1, priority := 1, source_type := "", event_matcher_expr := "",
    compiled_mapping := [] }

end NormalizerCore

namespace StreamCorr
open FilterCore

/-! ### services/stream_corr/worker.py and rules.py -/

/-- `StreamCorrRule` of services/stream_corr/rules.py. -/
structure StreamCorrRule : Type where
  id : Int
  name : String
  description : String
  enabled : Bool
  severity : String
  pattern : String
  window_s : Nat
  threshold : Nat
  expr_text : String
  expr_ast : Option Ast
  entity_field : String
deriving DecidableEq

/-- `matches_rule` of rules.py: a null AST never matches; evaluator
errors are caught and count as no match. -/
def matches_rule (rule : StreamCorrRule) (event : Event) : Bool :=
  eval_expr rule.expr_ast event

/-- The Redis state touched by the correlator: one sorted set of
`(member = message id, score = arrival time)` per `(rule_id, entity)`
key and one last-alert scalar per key. Wall-clock times and scores are
rationals standing in for floats. -/
structure CorrState : Type where
  zsets : List ((Int × String) × List (String × Rat))
  lastAlert : List ((Int × String) × Rat)
deriving DecidableEq

/-- The empty Redis state. -/
def emptyState : CorrState := { zsets := [], lastAlert := [] }

/-- The commands queued on the Redis pipeline by
`_check_threshold_and_should_alert` — ZADD of the current event at
score `now`, ZREMRANGEBYSCORE over `(-inf, now - window_s]`, ZCARD and
GET of the last-alert scalar — given as the state effect and the two
replies the method would read (`results[2]`, `results[3]`) were the
pipeline ever driven. -/
def pipe_effect (st : CorrState) (zkey : Int × String) (msg_id : String)
    (score window_start : Rat) : CorrState × Nat × Option Rat :=
  let z0 := (dictGet st.zsets zkey).getD []
  let z1 := dictSet z0 msg_id score
  let z2 := z1.filter (fun p => decide (window_start < p.2))
  ({ st with zsets := dictSet st.zsets zkey z2 }, z2.length, dictGet st.lastAlert zkey)

/-- `asyncio.get_event_loop().run_until_complete(coro)` as invoked from
`_check_threshold_and_should_alert`, which itself runs inside the
worker's already-running event loop: `get_event_loop()` returns the
running loop and `run_until_complete` on a running loop
deterministically raises `RuntimeError("This event loop is already
running")`; the coroutine argument is never driven, so none of its
commands execute. -/
def run_until_complete_in_running_loop {α : Type} (_coro : Unit → α) :
    Except String α :=
  .error "This event loop is already running"

/-- `StreamCorrWorker._check_threshold_and_should_alert`: queues the
pipeline and runs it with `run_until_complete` on the running loop
(worker.py:275), which always raises — so the method never returns
normally and no Redis state changes. The decision logic past the
pipeline call (threshold test, re-alert suppression, the second
`run_until_complete` for the last-alert SET at worker.py:289) is
transcribed from the source but unreachable. -/
def check_threshold_and_should_alert (rule : StreamCorrRule) (entity_key msg_id : String)
    (now : Rat) (st : CorrState) : Except String (Bool × CorrState) :=
  let zkey : Int × String := (rule.id, entity_key)
  let window_start : Rat := now - (rule.window_s : Rat)
  match run_until_complete_in_running_loop
      (fun _ => pipe_effect st zkey msg_id now window_start) with
  | .error e => .error e
  | .ok (st1, current_count, last_raw) =>
      let last_alert_ts := last_raw.getD 0
      if current_count < rule.threshold then .ok (false, st1)
      else if last_alert_ts ≠ 0 ∧ now - last_alert_ts < (rule.window_s : Rat) then
        .ok (false, st1)
      else
        match run_until_complete_in_running_loop (fun _ => ()) with
        | .error e => .error e
        | .ok _ => .ok (true, { st1 with lastAlert := dictSet st1.lastAlert zkey now })

/-- Python `int()` truncation toward zero of a float, applied to a
rational. -/
def py_trunc (q : Rat) : Int := q.num.tdiv (q.den : Int)

/-- `json.dumps` of the context dict built in `_build_alert_row`
(string escaping elided). -/
def json_dumps_context (rule_id : Int) (entity_key description : String) : String :=
  "\x7b\"rule_id\": " ++ toString rule_id ++ ", \"entity_key\": \"" ++ entity_key ++
    "\", \"description\": \"" ++ description ++ "\"\x7d"

/-- A row of `siem.alerts_raw` as produced by `_build_alert_row` (the
wall-clock `ts` is `int(now)`; `alert_id` is the fresh UUID passed in
by the caller). -/
structure AlertRow : Type where
  ts : Int
  alert_id : String
  rule_id : Int
  rule_name : String
  severity : String
  ts_first : Int
  ts_last : Int
  window_s : Nat
  entity_key : String
  hits : Nat
  context_json : String
  source : String
  status : String
deriving DecidableEq

/-- `StreamCorrWorker._build_alert_row`: `ts = int(now)`,
`ts_first = ts - window_s`, `ts_last = ts`, `hits = rule.threshold`
(the comment in the source notes the window size is not re-read). The
worker can only call this after a threshold check returned `True`,
which never happens. -/
def build_alert_row (rule : StreamCorrRule) (entity_key : String) (now : Rat)
    (alert_id : String) : AlertRow :=
  let ts := py_trunc now
  { ts := ts, alert_id := alert_id, rule_id := rule.id, rule_name := rule.name,
    severity := rule.severity, ts_first := ts - (rule.window_s : Int), ts_last := ts,
    window_s := rule.window_s, entity_key := entity_key, hits := rule.threshold,
    context_json := json_dumps_context rule.id entity_key rule.description,
    source := "stream", status := "open" }

/-- The per-event rule loop in `StreamCorrWorker.run`: skip rules whose
pattern is not `threshold`, skip non-matching rules, skip an empty
entity key, then run the threshold check and append an alert row when
it fires. The loop body carries no try/except, so an exception from the
check aborts the loop. `uuidOf` supplies the fresh UUID for the n-th
alert of the batch. -/
def run_rules (now : Rat) (msg_id : String) (ev : Event) (uuidOf : Nat → String) :
    List StreamCorrRule → CorrState → List AlertRow →
    Except String (CorrState × List AlertRow)
  | [], st, alerts => .ok (st, alerts)
  | rule :: rest, st, alerts =>
      if rule.pattern ≠ "threshold" then run_rules now msg_id ev uuidOf rest st alerts
      else if ¬ matches_rule rule ev then run_rules now msg_id ev uuidOf rest st alerts
      else
        let entity_key := (dictGet ev rule.entity_field).getD ""
        if entity_key = "" then run_rules now msg_id ev uuidOf rest st alerts
        else
          match check_threshold_and_should_alert rule entity_key msg_id now st with
          | .error e => .error e
          | .ok (should, st1) =>
              if should then
                run_rules now msg_id ev uuidOf rest st1
                  (alerts ++ [build_alert_row rule entity_key now (uuidOf alerts.length)])
              else run_rules now msg_id ev uuidOf rest st1 alerts

/-- The message loop in `StreamCorrWorker.run`: every consumed message
id is appended to `processed_ids`; the loop is not wrapped in
try/except (only the XREADGROUP above it is), so an exception from any
message aborts the whole batch iteration. -/
def run_messages (rules : List StreamCorrRule) (now : Rat) (uuidOf : Nat → String) :
    List (String × Event) → CorrState → List AlertRow → List String →
    Except String (CorrState × List AlertRow × List String)
  | [], st, alerts, ids => .ok (st, alerts, ids)
  | (msg_id, ev) :: rest, st, alerts, ids =>
      match run_rules now msg_id ev uuidOf rules st alerts with
      | .error e => .error e
      | .ok (st1, alerts1) =>
          run_messages rules now uuidOf rest st1 alerts1 (ids ++ [msg_id])

/-- Result of one iteration of the batch loop in
`StreamCorrWorker.run`. -/
structure BatchResult : Type where
  state : CorrState
  alerts : List AlertRow
  inserted : List AlertRow
  acked : List String
deriving DecidableEq

/-- One iteration of the batch loop of `StreamCorrWorker.run`:
`now = time.time()` is read once for the whole batch. An exception
escaping the unguarded message loop aborts the iteration — and the
worker, since `run()` does not catch it — before the insert and XACK
blocks, so nothing is inserted and nothing is acknowledged. On normal
completion the bulk insert into `siem.alerts_raw` is attempted when any
alert exists (`insertOk` abstracts its success; a failure is caught and
only logged) and then XACK is issued for all processed ids
unconditionally. -/
def process_batch (rules : List StreamCorrRule) (batch : List (String × Event))
    (now : Rat) (st : CorrState) (uuidOf : Nat → String) (insertOk : Bool) :
    Except String BatchResult :=
  match run_messages rules now uuidOf batch st [] [] with
  | .error e => .error e
  | .ok (st1, alerts, ids) =>
      let inserted := if alerts.isEmpty then [] else if insertOk then alerts else []
      .ok { state := st1, alerts := alerts, inserted := inserted, acked := ids }

/-- Threshold-1 rule over a 10 s window. -/
def corrRule1 : StreamCorrRule :=
  { id := 1, name := "any-x", description := "d", enabled := true,
    severity := "low", pattern := "threshold", window_s := 10, threshold := 1,
    expr_text := "", expr_ast := some (Ast.cmp "x" "==" "1"), entity_field := "user" }

end StreamCorr

namespace Writer

/-! ### services/writer/worker.py -/

/-- Decimal digit folding for a known-all-digit character list. -/
def digitsVal (ds : List Char) : Nat :=
  ds.foldl (fun a c => a * 10 + (c.toNat - '0'.toNat)) 0

/-- Python `int(s)` on a string: optional surrounding whitespace,
optional sign, then a non-empty digit string (underscore grouping
elided). Errors map to `none`. -/
def py_int_parse (s : String) : Option Int :=
  let cs := (((s.data.dropWhile FilterCore.isPySpace).reverse.dropWhile
      FilterCore.isPySpace).reverse)
  match cs with
  | '+' :: ds =>
      if ds ≠ [] ∧ ds.all Char.isDigit then some (Int.ofNat (digitsVal ds)) else none
  | '-' :: ds =>
      if ds ≠ [] ∧ ds.all Char.isDigit then some (-(Int.ofNat (digitsVal ds))) else none
  | ds =>
      if ds ≠ [] ∧ ds.all Char.isDigit then some (Int.ofNat (digitsVal ds)) else none

/-- Split a character list on single-character separators, Python
`str.split(sep)`. -/
def splitOnChar (sep : Char) : List Char → List (List Char)
  | [] => [[]]
  | c :: rest =>
      let r := splitOnChar sep rest
      if c = sep then [] :: r
      else
        match r with
        | h :: t => (c :: h) :: t
        | [] => [[c]]

/-- One dotted-quad octet as accepted by `ipaddress.IPv4Address`:
one to three digits, no leading zero, value at most 255. -/
def parseOctet (ds : List Char) : Option Nat :=
  if ds = [] then none
  else if ¬ ds.all Char.isDigit then none
  else if 3 < ds.length then none
  else if 1 < ds.length ∧ ds.head? = some '0' then none
  else
    let n := digitsVal ds
    if 255 < n then none else some n

/-- Strict dotted-quad parse of `ipaddress.IPv4Address(str)`. -/
def parseIPv4 (s : String) : Option (Nat × Nat × Nat × Nat) :=
  match splitOnChar '.' s.data with
  | [a, b, c, d] =>
      match parseOctet a, parseOctet b, parseOctet c, parseOctet d with
      | some x, some y, some z, some w => some (x, y, z, w)
      | _, _, _, _ => none
  | _ => none

/-- `ipv4_to_int` of services/writer/worker.py: falsy input (None or
empty string) yields 0, an invalid address is caught and yields 0,
otherwise the 32-bit integer value of the address. -/
def ipv4_to_int (ip : Option String) : Nat :=
  match ip with
  | none => 0
  | some s =>
      if s = "" then 0
      else
        match parseIPv4 s with
        | some (a, b, c, d) => ((a * 256 + b) * 256 + c) * 256 + d
        | none => 0

/-- Python string truthiness fallback `a or b` for strings. -/
def py_or (a b : String) : String := if a ≠ "" then a else b

/-- The port conversion in `_build_row`:
`int(fields.get("source.port", "0") or 0)`; a missing key parses the
default "0", an empty value short-circuits to the integer 0, anything
else goes through `int()` and may raise. -/
def parse_port (v : Option String) : Except String Int :=
  match v with
  | none => .ok 0
  | some s =>
      if s = "" then .ok 0
      else
        match py_int_parse s with
        | some n => .ok n
        | none => .error "invalid literal for int"

/-- A row of `siem.events` as built by `_build_row` (the wall-clock
`ts = datetime.now(utc)` column is not modelled). -/
structure Row : Type where
  event_id : String
  category : String
  subcategory : String
  src_ip : Nat
  dst_ip : Nat
  src_port : Int
  dst_port : Int
  device_vendor : String
  device_product : String
  log_source : String
  severity : String
  message : String
deriving DecidableEq

/-- `WriterWorker._build_row` of services/writer/worker.py; an
exception from `int()` on a port propagates (the caller skips and
acks such records). -/
def build_row (msg_id : String) (fields : Event) : Except String Row :=
  let provider := (dictGet fields "event.provider").getD ""
  match parse_port (dictGet fields "source.port"),
        parse_port (dictGet fields "destination.port") with
  | .error e, _ => .error e
  | _, .error e => .error e
  | .ok sp, .ok dp =>
      .ok { event_id := py_or ((dictGet fields "event_id").getD "") msg_id,
            category := py_or ((dictGet fields "event.category").getD "")
              (py_or provider "generic"),
            subcategory := (dictGet fields "event.type").getD "",
            src_ip := ipv4_to_int (dictGet fields "source.ip"),
            dst_ip := ipv4_to_int (dictGet fields "destination.ip"),
            src_port := sp, dst_port := dp,
            device_vendor := py_or ((dictGet fields "device.vendor").getD "") provider,
            device_product := py_or ((dictGet fields "device.product").getD "") provider,
            log_source := py_or ((dictGet fields "log_source").getD "")
              (py_or ((dictGet fields "host.name").getD "")
                 (py_or ((dictGet fields "source.ip").getD "") "")),
            severity := py_or ((dictGet fields "event.severity").getD "")
              (py_or ((dictGet fields "severity").getD "")
                 (py_or ((dictGet fields "log.level").getD "") "info")),
            message := py_or ((dictGet fields "event.original").getD "")
              (py_or ((dictGet fields "message").getD "") "") }

end Writer

/-! ## Theorems -/


theorem dictGet_dictSet_self {κ α : Type} [DecidableEq κ]
    (d : List (κ × α)) (k : κ) (v : α) : dictGet (dictSet d k v) k = some v := by
  induction d with
  | nil => simp [dictGet, dictSet]
  | cons hd tl ih =>
      obtain ⟨k0, v0⟩ := hd
      by_cases h : k0 = k
      · subst h; simp [dictGet, dictSet]
      · simp [dictGet, dictSet, h, ih]

theorem dictGet_dictSet_ne {κ α : Type} [DecidableEq κ]
    (d : List (κ × α)) (k k2 : κ) (v : α) (h : k ≠ k2) :
    dictGet (dictSet d k v) k2 = dictGet d k2 := by
  induction d with
  | nil => simp [dictGet, dictSet, h]
  | cons hd tl ih =>
      obtain ⟨k0, v0⟩ := hd
      by_cases h0 : k0 = k
      · subst h0; simp [dictGet, dictSet, h]
      · simp [dictGet, dictSet, h0, ih]

namespace FilterCore

theorem parseCmp_ok_iff (toks : List Tok) (a : Ast) (rest : List Tok) :
    parseCmp toks = .ok (a, rest) ↔
      ∃ f o v, toks = Tok.name f :: Tok.op o :: Tok.str v :: rest ∧
        (o = "==" ∨ o = "!=") ∧ a = Ast.cmp f o v := by
  match toks with
  | [] => simp [parseCmp]
  | [t1] => simp [parseCmp]
  | [t1, t2] => simp [parseCmp]
  | t1 :: t2 :: t3 :: r =>
      cases t1 <;> cases t2 <;> cases t3 <;>
        simp [parseCmp] <;> split_ifs <;> simp_all <;> aesop

theorem chainToks_cons (f o v : String) (rest : List Tok) :
    chainToks (Tok.name f :: Tok.op o :: Tok.str v :: rest) =
      ((o == "==" || o == "!=") && chainRest rest) := by
  cases rest with
  | nil => simp [chainToks, chainRest]
  | cons hd tl => cases hd <;> simp [chainToks, chainRest]

theorem chainToks_false_of_parseCmp_err (toks : List Tok) (e : String)
    (h : parseCmp toks = .error e) : chainToks toks = false := by
  match toks with
  | [] => simp [chainToks]
  | [t1] => cases t1 <;> simp [chainToks]
  | [t1, t2] => cases t1 <;> cases t2 <;> simp [chainToks]
  | t1 :: t2 :: t3 :: r =>
      cases t1 <;> cases t2 <;> cases t3 <;>
        first
          | (simp [chainToks]; done)
          | (rename_i f o v
             rw [chainToks_cons]
             simp only [parseCmp] at h
             split_ifs at h with ho
             push_neg at ho
             simp [ho.1, ho.2])

end FilterCore

namespace FilterCore

theorem parseLoop_spec : ∀ (fuel : Nat) (toks : List Tok) (acc : Ast),
    toks.length ≤ fuel →
    ((∃ a, parseLoop fuel acc toks = .ok (a, [])) ↔ chainRest toks = true) := by
  intro fuel
  induction fuel with
  | zero =>
      intro toks acc h
      have hnil : toks = [] := List.eq_nil_of_length_eq_zero (Nat.le_zero.mp h)
      subst hnil
      simp [parseLoop, chainRest]
  | succ n ih =>
      intro toks acc h
      match toks with
      | [] => simp [parseLoop, chainRest]
      | Tok.name f :: rest => simp [parseLoop, chainRest]
      | Tok.str v :: rest => simp [parseLoop, chainRest]
      | Tok.op o :: rest => simp [parseLoop, chainRest]
      | Tok.tand :: rest =>
          rcases hpc : parseCmp rest with e | pr
          · have hf := chainToks_false_of_parseCmp_err rest e hpc
            simp [parseLoop, hpc, chainRest, hf]
          · obtain ⟨r, rest2⟩ := pr
            obtain ⟨f, o, v, hrest, ho, ha⟩ := (parseCmp_ok_iff rest r rest2).mp hpc
            subst hrest
            subst ha
            have hlen : rest2.length ≤ n := by simp at h; omega
            have hih := ih rest2 (Ast.band acc (Ast.cmp f o v)) hlen
            have hob : (o == "==" || o == "!=") = true := by
              rcases ho with ho | ho <;> simp [ho]
            have hstep :
                parseLoop (n + 1) acc
                    (Tok.tand :: Tok.name f :: Tok.op o :: Tok.str v :: rest2) =
                  parseLoop n (Ast.band acc (Ast.cmp f o v)) rest2 := by
              simp [parseLoop, hpc]
            have hcr :
                chainRest (Tok.tand :: Tok.name f :: Tok.op o :: Tok.str v :: rest2) =
                  chainRest rest2 := by
              show chainToks (Tok.name f :: Tok.op o :: Tok.str v :: rest2) = chainRest rest2
              rw [chainToks_cons, hob, Bool.true_and]
            rw [hstep, hcr]
            exact hih
      | Tok.tor :: rest =>
          rcases hpc : parseCmp rest with e | pr
          · have hf := chainToks_false_of_parseCmp_err rest e hpc
            simp [parseLoop, hpc, chainRest, hf]
          · obtain ⟨r, rest2⟩ := pr
            obtain ⟨f, o, v, hrest, ho, ha⟩ := (parseCmp_ok_iff rest r rest2).mp hpc
            subst hrest
            subst ha
            have hlen : rest2.length ≤ n := by simp at h; omega
            have hih := ih rest2 (Ast.bor acc (Ast.cmp f o v)) hlen
            have hob : (o == "==" || o == "!=") = true := by
              rcases ho with ho | ho <;> simp [ho]
            have hstep :
                parseLoop (n + 1) acc
                    (Tok.tor :: Tok.name f :: Tok.op o :: Tok.str v :: rest2) =
                  parseLoop n (Ast.bor acc (Ast.cmp f o v)) rest2 := by
              simp [parseLoop, hpc]
            have hcr :
                chainRest (Tok.tor :: Tok.name f :: Tok.op o :: Tok.str v :: rest2) =
                  chainRest rest2 := by
              show chainToks (Tok.name f :: Tok.op o :: Tok.str v :: rest2) = chainRest rest2
              rw [chainToks_cons, hob, Bool.true_and]
            rw [hstep, hcr]
            exact hih

theorem parseToks_ok_iff (toks : List Tok) :
    (∃ a, parseToks toks = .ok a) ↔ (toks ≠ [] ∧ chainToks toks = true) := by
  by_cases hnil : toks = []
  · subst hnil; simp [parseToks, chainToks]
  · rcases hpc : parseCmp toks with e | pr
    · have hf := chainToks_false_of_parseCmp_err toks e hpc
      simp [parseToks, hnil, hpc, hf, List.isEmpty_iff]
    · obtain ⟨left, rest⟩ := pr
      obtain ⟨f, o, v, hrest, ho, ha⟩ := (parseCmp_ok_iff toks left rest).mp hpc
      subst hrest
      subst ha
      have hob : (o == "==" || o == "!=") = true := by
        rcases ho with ho | ho <;> simp [ho]
      have hchain :
          chainToks (Tok.name f :: Tok.op o :: Tok.str v :: rest) = chainRest rest := by
        rw [chainToks_cons, hob, Bool.true_and]
      have hspec := parseLoop_spec rest.length rest (Ast.cmp f o v) (Nat.le_refl _)
      have heq : parseToks (Tok.name f :: Tok.op o :: Tok.str v :: rest) =
          (match parseLoop rest.length (Ast.cmp f o v) rest with
           | .error e => .error e
           | .ok (a2, rest2) =>
               if rest2.isEmpty then .ok a2
               else .error "Unexpected tokens at end of expr") := by
        simp [parseToks, hpc]
      rcases hpl : parseLoop rest.length (Ast.cmp f o v) rest with e2 | pr2
      · have hfalse : chainRest rest ≠ true := by
          intro hc
          obtain ⟨a, hpl2⟩ := hspec.mpr hc
          rw [hpl] at hpl2
          cases hpl2
        simp [heq, hpl, hchain, hfalse]
      · obtain ⟨a2, rest2⟩ := pr2
        cases rest2 with
        | nil =>
            have htrue : chainRest rest = true := hspec.mp ⟨a2, hpl⟩
            simp [heq, hpl, hchain, htrue]
        | cons x xs =>
            have hfalse : chainRest rest ≠ true := by
              intro hc
              obtain ⟨a, hpl2⟩ := hspec.mpr hc
              rw [hpl] at hpl2
              simp at hpl2
            simp [heq, hpl, hchain, hfalse]
  -- done
end FilterCore

namespace FilterCore

theorem chain3_left_assoc (f1 f2 f3 o1 o2 o3 v1 v2 v3 : String) (b1 b2 : Tok)
    (ho1 : o1 = "==" ∨ o1 = "!=") (ho2 : o2 = "==" ∨ o2 = "!=")
    (ho3 : o3 = "==" ∨ o3 = "!=")
    (hb1 : b1 = Tok.tand ∨ b1 = Tok.tor) (hb2 : b2 = Tok.tand ∨ b2 = Tok.tor) :
    parseToks [Tok.name f1, Tok.op o1, Tok.str v1, b1,
               Tok.name f2, Tok.op o2, Tok.str v2, b2,
               Tok.name f3, Tok.op o3, Tok.str v3] =
      .ok (binOf b2 (binOf b1 (Ast.cmp f1 o1 v1) (Ast.cmp f2 o2 v2))
            (Ast.cmp f3 o3 v3)) := by
  rcases hb1 with hb1 | hb1 <;> rcases hb2 with hb2 | hb2 <;>
    subst hb1 <;> subst hb2 <;>
    rcases ho1 with ho1 | ho1 <;> subst ho1 <;>
    rcases ho2 with ho2 | ho2 <;> subst ho2 <;>
    rcases ho3 with ho3 | ho3 <;> subst ho3 <;>
      simp [parseToks, parseCmp, parseLoop, binOf]

end FilterCore

namespace FilterWorker
open FilterCore

theorem apply_go_skip (r : FilterRule) (rest : List FilterRule) (event : Event)
    (tags : List String) (h : rule_halts r event = false) :
    apply_rules_go event (r :: rest) tags = apply_rules_go event rest tags := by
  rcases hast : r.expr_ast with _ | a
  · simp [apply_rules_go, hast]
  · simp only [rule_halts, hast, Bool.and_eq_false_iff] at h
    rcases h with h | h
    · simp [apply_rules_go, hast, h]
    · simp only [Bool.or_eq_false_iff, beq_eq_false_iff_ne, ne_eq] at h
      obtain ⟨⟨h1, h2⟩, h3⟩ := h
      rcases he : evalAst a event with _ | _
      · simp [apply_rules_go, hast, he]
      · simp [apply_rules_go, hast, he, h1, h2, h3]

theorem apply_go_skip_all (pre : List FilterRule) (rest : List FilterRule)
    (event : Event) (tags : List String)
    (h : ∀ r ∈ pre, rule_halts r event = false) :
    apply_rules_go event (pre ++ rest) tags = apply_rules_go event rest tags := by
  induction pre with
  | nil => rfl
  | cons p ps ih =>
      rw [List.cons_append, apply_go_skip p (ps ++ rest) event tags (h p (by simp))]
      exact ih (fun r hr => h r (by simp [hr]))

theorem apply_go_halt (r : FilterRule) (rest : List FilterRule) (event : Event)
    (tags : List String) (h : rule_halts r event = true) :
    apply_rules_go event (r :: rest) tags =
      (if r.action = "drop" then ("drop", event)
       else if r.action = "tag" then finish_tags event (tags ++ r.tags)
       else finish_tags event tags) := by
  rcases hast : r.expr_ast with _ | a
  · simp [rule_halts, hast] at h
  · simp only [rule_halts, hast, Bool.and_eq_true] at h
    obtain ⟨he, hact⟩ := h
    by_cases h1 : r.action = "drop"
    · simp [apply_rules_go, hast, he, h1]
    · by_cases h2 : r.action = "tag"
      · simp [apply_rules_go, hast, he, h1, h2]
      · have h3 : r.action = "pass" := by
          simp only [Bool.or_eq_true, beq_iff_eq] at hact
          tauto
        simp [apply_rules_go, hast, he, h1, h2, h3]

theorem finish_tags_ne_nil (event : Event) (tags : List String) (h : tags ≠ []) :
    finish_tags event tags =
      ("tag", dictSet event "tags"
        (match dictGet event "tags" with
         | some ex => if ex ≠ "" then ex ++ "," ++ joinTags tags else joinTags tags
         | none => joinTags tags)) := by
  rcases hg : dictGet event "tags" with _ | ex
  · simp [finish_tags, List.isEmpty_iff, h, hg]
  · by_cases hex : ex = ""
    · simp [finish_tags, List.isEmpty_iff, h, hg, hex]
    · simp [finish_tags, List.isEmpty_iff, h, hg, hex]

theorem apply_rules_first_halting (pre : List FilterRule) (r : FilterRule)
    (post : List FilterRule) (event : Event)
    (hpre : ∀ q ∈ pre, rule_halts q event = false)
    (hr : rule_halts r event = true) :
    (r.action = "drop" → apply_rules (pre ++ r :: post) event = ("drop", event)) ∧
    (r.action = "tag" → r.tags ≠ [] →
       apply_rules (pre ++ r :: post) event =
         ("tag", dictSet event "tags"
            (match dictGet event "tags" with
             | some ex => if ex ≠ "" then ex ++ "," ++ joinTags r.tags
                          else joinTags r.tags
             | none => joinTags r.tags))) ∧
    (r.action = "tag" → r.tags = [] →
       apply_rules (pre ++ r :: post) event = ("pass", event)) ∧
    (r.action = "pass" → apply_rules (pre ++ r :: post) event = ("pass", event)) := by
  have hbase : apply_rules (pre ++ r :: post) event =
      apply_rules_go event (r :: post) [] := by
    unfold apply_rules
    exact apply_go_skip_all pre (r :: post) event [] hpre
  rw [hbase, apply_go_halt r post event [] hr]
  refine ⟨?_, ?_, ?_, ?_⟩
  · intro h1; simp [h1]
  · intro h2 hne
    have h1 : r.action ≠ "drop" := by rw [h2]; decide
    simp only [h1, if_false, h2, if_true, List.nil_append, if_pos]
    exact finish_tags_ne_nil event r.tags hne
  · intro h2 hnil
    have h1 : r.action ≠ "drop" := by rw [h2]; decide
    simp [h1, h2, hnil, finish_tags]
  · intro h3
    have h1 : r.action ≠ "drop" := by rw [h3]; decide
    have h2 : r.action ≠ "tag" := by rw [h3]; decide
    simp [h1, h2, finish_tags]

theorem apply_rules_no_halting (rules : List FilterRule) (event : Event)
    (h : ∀ q ∈ rules, rule_halts q event = false) :
    apply_rules rules event = ("pass", event) := by
  have hbase : apply_rules (rules ++ []) event = apply_rules_go event [] [] :=
    apply_go_skip_all rules [] event [] h
  rw [List.append_nil] at hbase
  rw [hbase]
  simp [apply_rules_go, finish_tags]

end FilterWorker

namespace NormalizerCore

theorem needs_default_false (v : Option (Option String))
    (h : needs_default v = false) : ∃ s, v = some (some s) ∧ s ≠ "" := by
  match v with
  | none => simp [needs_default] at h
  | some none => simp [needs_default] at h
  | some (some s) =>
      refine ⟨s, rfl, ?_⟩
      simpa [needs_default] using h

theorem py_str_raw_ne_empty (raw : RawEvent) : py_str_raw raw ≠ "" := by
  intro h
  have hlen := congrArg String.length h
  simp [py_str_raw, String.length_append] at hlen
  exact (by decide : ("\x7b" : String).length ≠ 0) hlen.1.1

theorem norm_defaults_provider (uem : UEM) (raw : RawEvent) :
    dictGet (norm_defaults uem raw) "event.provider" =
      (if needs_default (dictGet uem "event.provider") then
         some (some ((dictGet raw "source_type").getD ""))
       else dictGet uem "event.provider") := by
  have hne : ("event.original" : String) ≠ "event.provider" := by decide
  by_cases hc1 : needs_default (dictGet uem "event.provider") = true
  · simp only [norm_defaults, hc1, if_true]
    by_cases hc2 :
        needs_default (dictGet (dictSet uem "event.provider"
          (some ((dictGet raw "source_type").getD ""))) "event.original") = true
    · by_cases hm : (dictGet raw "message").isSome
      · simp [hc2, hm, dictGet_dictSet_ne _ _ _ _ hne, dictGet_dictSet_self]
      · simp [hc2, hm, dictGet_dictSet_ne _ _ _ _ hne, dictGet_dictSet_self]
    · simp [hc2, dictGet_dictSet_self]
  · have hc1f : needs_default (dictGet uem "event.provider") = false := by
      simpa using hc1
    simp only [norm_defaults, hc1f, Bool.false_eq_true, if_false]
    by_cases hc2 : needs_default (dictGet uem "event.original") = true
    · by_cases hm : (dictGet raw "message").isSome
      · simp [hc2, hm, dictGet_dictSet_ne _ _ _ _ hne]
      · simp [hc2, hm, dictGet_dictSet_ne _ _ _ _ hne]
    · simp [hc2]

theorem norm_defaults_original (uem : UEM) (raw : RawEvent) :
    dictGet (norm_defaults uem raw) "event.original" =
      (if needs_default (dictGet uem "event.original") then
         (if (dictGet raw "message").isSome then
            some (some ((dictGet raw "message").getD ""))
          else some (some (py_str_raw raw)))
       else dictGet uem "event.original") := by
  have hne2 : ("event.provider" : String) ≠ "event.original" := by decide
  by_cases hc1 : needs_default (dictGet uem "event.provider") = true
  · have horig : dictGet (dictSet uem "event.provider"
        (some ((dictGet raw "source_type").getD ""))) "event.original" =
          dictGet uem "event.original" := dictGet_dictSet_ne _ _ _ _ hne2
    simp only [norm_defaults, hc1, if_true, horig]
    by_cases hc2 : needs_default (dictGet uem "event.original") = true
    · by_cases hm : (dictGet raw "message").isSome
      · simp [hc2, hm, dictGet_dictSet_self]
      · simp [hc2, hm, dictGet_dictSet_self]
    · simp [hc2, horig]
  · have hc1f : needs_default (dictGet uem "event.provider") = false := by
      simpa using hc1
    simp only [norm_defaults, hc1f, Bool.false_eq_true, if_false]
    by_cases hc2 : needs_default (dictGet uem "event.original") = true
    · by_cases hm : (dictGet raw "message").isSome
      · simp [hc2, hm, dictGet_dictSet_self]
      · simp [hc2, hm, dictGet_dictSet_self]
    · simp [hc2]

end NormalizerCore

namespace StreamCorr

theorem check_always_raises (rule : StreamCorrRule) (entity_key msg_id : String)
    (now : Rat) (st : CorrState) :
    check_threshold_and_should_alert rule entity_key msg_id now st =
      .error "This event loop is already running" := rfl

theorem run_rules_ok (now : Rat) (msg_id : String) (ev : Event)
    (uuidOf : Nat → String) :
    ∀ (rules : List StreamCorrRule) (st : CorrState) (alerts : List AlertRow)
      (out : CorrState × List AlertRow),
      run_rules now msg_id ev uuidOf rules st alerts = .ok out →
      out = (st, alerts) := by
  intro rules
  induction rules with
  | nil =>
      intro st alerts out h
      simp only [run_rules, Except.ok.injEq] at h
      exact h.symm
  | cons rule rest ih =>
      intro st alerts out h
      simp only [run_rules] at h
      split_ifs at h with h1 h2 h3 <;>
        first
          | exact ih st alerts out h
          | (rw [check_always_raises] at h
             simp at h)

theorem run_messages_ok (rules : List StreamCorrRule) (now : Rat)
    (uuidOf : Nat → String) :
    ∀ (batch : List (String × Event)) (st : CorrState) (alerts : List AlertRow)
      (ids : List String) (out : CorrState × List AlertRow × List String),
      run_messages rules now uuidOf batch st alerts ids = .ok out →
      out = (st, alerts, ids ++ batch.map Prod.fst) := by
  intro batch
  induction batch with
  | nil =>
      intro st alerts ids out h
      simp only [run_messages, Except.ok.injEq] at h
      simp [← h]
  | cons hd tl ih =>
      intro st alerts ids out h
      obtain ⟨msg_id, ev⟩ := hd
      rcases hr : run_rules now msg_id ev uuidOf rules st alerts with e | p
      · simp only [run_messages, hr] at h
        exact Except.noConfusion h
      · obtain ⟨st1, alerts1⟩ := p
        have hpair := run_rules_ok now msg_id ev uuidOf rules st alerts (st1, alerts1) hr
        rw [Prod.mk.injEq] at hpair
        obtain ⟨hst, hal⟩ := hpair
        subst hst
        subst hal
        simp only [run_messages, hr] at h
        have := ih st1 alerts1 (ids ++ [msg_id]) out h
        simpa using this

theorem process_batch_ok (rules : List StreamCorrRule) (batch : List (String × Event))
    (now : Rat) (st : CorrState) (uuidOf : Nat → String) (insertOk : Bool)
    (r : BatchResult) (h : process_batch rules batch now st uuidOf insertOk = .ok r) :
    r.alerts = [] ∧ r.inserted = [] ∧ r.acked = batch.map Prod.fst ∧ r.state = st := by
  simp only [process_batch] at h
  rcases hm : run_messages rules now uuidOf batch st [] [] with e | p
  · simp only [hm] at h
    exact Except.noConfusion h
  · obtain ⟨st1, rest⟩ := p
    obtain ⟨alerts, ids⟩ := rest
    have hspec := run_messages_ok rules now uuidOf batch st [] [] (st1, alerts, ids) hm
    simp only [Prod.mk.injEq, List.nil_append] at hspec
    obtain ⟨hst, hal, hids⟩ := hspec
    subst hst
    subst hal
    subst hids
    simp only [hm, List.isEmpty_nil, if_true, Except.ok.injEq] at h
    subst h
    exact ⟨rfl, rfl, rfl, rfl⟩

end StreamCorr

theorem foldl_append_singleton {α β : Type} (g : α → β) :
    ∀ (l : List α) (acc : List β),
      l.foldl (fun a r => a ++ [g r]) acc = acc ++ l.map g := by
  intro l
  induction l with
  | nil => intro acc; simp
  | cons hd tl ih => intro acc; simp [ih]

namespace FilterCore

theorem load_filter_rules_eq_map (rows : List RuleRow) :
    load_filter_rules rows =
      rows.map (fun row =>
        { id := row.id, name := row.name, description := row.description,
          priority := row.priority, action := row.action, tags := row.tags,
          expr_text := row.expr,
          expr_ast := if row.expr ≠ "" then (parse_expr row.expr).toOption
                      else none }) := by
  unfold load_filter_rules
  exact foldl_append_singleton _ rows []

end FilterCore

namespace Writer

theorem parseOctet_le (ds : List Char) (n : Nat) (h : parseOctet ds = some n) :
    n ≤ 255 := by
  simp only [parseOctet] at h
  split_ifs at h with h1 h2 h3 h4 h5
  simp only [Option.some.injEq] at h
  omega

theorem parseIPv4_value (s : String) (a b c d : Nat)
    (h : parseIPv4 s = some (a, b, c, d)) :
    ipv4_to_int (some s) = ((a * 256 + b) * 256 + c) * 256 + d ∧
      a ≤ 255 ∧ b ≤ 255 ∧ c ≤ 255 ∧ d ≤ 255 := by
  have hs : s ≠ "" := by
    intro he
    rw [he, show parseIPv4 "" = none from rfl] at h
    exact Option.noConfusion h
  have hval : ipv4_to_int (some s) = ((a * 256 + b) * 256 + c) * 256 + d := by
    simp [ipv4_to_int, hs, h]
  refine ⟨hval, ?_⟩
  simp only [parseIPv4] at h
  rcases hsp : splitOnChar '.' s.data with _ | ⟨p1, l1⟩
  · rw [hsp] at h; simp at h
  · rcases l1 with _ | ⟨p2, l2⟩
    · rw [hsp] at h; simp at h
    · rcases l2 with _ | ⟨p3, l3⟩
      · rw [hsp] at h; simp at h
      · rcases l3 with _ | ⟨p4, l4⟩
        · rw [hsp] at h; simp at h
        · rcases l4 with _ | ⟨p5, l5⟩
          · rw [hsp] at h
            rcases ho1 : parseOctet p1 with _ | x
            · simp [ho1] at h
            · rcases ho2 : parseOctet p2 with _ | y
              · simp [ho1, ho2] at h
              · rcases ho3 : parseOctet p3 with _ | z
                · simp [ho1, ho2, ho3] at h
                · rcases ho4 : parseOctet p4 with _ | w
                  · simp [ho1, ho2, ho3, ho4] at h
                  · simp only [ho1, ho2, ho3, ho4, Option.some.injEq,
                      Prod.mk.injEq] at h
                    obtain ⟨ha, hb, hc, hd⟩ := h
                    exact ⟨ha ▸ parseOctet_le p1 x ho1, hb ▸ parseOctet_le p2 y ho2,
                      hc ▸ parseOctet_le p3 z ho3, hd ▸ parseOctet_le p4 w ho4⟩
          · rw [hsp] at h; simp at h

theorem ipv4_to_int_lt (ip : Option String) : ipv4_to_int ip < 4294967296 := by
  rcases ip with _ | s
  · simp [ipv4_to_int]
  · by_cases hs : s = ""
    · simp [ipv4_to_int, hs]
    · rcases hp : parseIPv4 s with _ | q
      · simp [ipv4_to_int, hs, hp]
      · obtain ⟨a, b, c, d⟩ := q
        obtain ⟨hv, ha, hb, hc, hd⟩ := parseIPv4_value s a b c d hp
        rw [hv]
        omega

theorem parse_port_defaults :
    parse_port none = .ok 0 ∧ parse_port (some "") = .ok 0 := by
  constructor <;> rfl

theorem build_row_ip_ports (msg_id : String) (fields : Event) (row : Row)
    (h : build_row msg_id fields = .ok row) :
    row.src_ip = ipv4_to_int (dictGet fields "source.ip") ∧
    row.dst_ip = ipv4_to_int (dictGet fields "destination.ip") ∧
    parse_port (dictGet fields "source.port") = .ok row.src_port ∧
    parse_port (dictGet fields "destination.port") = .ok row.dst_port := by
  simp only [build_row] at h
  rcases hp1 : parse_port (dictGet fields "source.port") with e1 | sp <;>
    rcases hp2 : parse_port (dictGet fields "destination.port") with e2 | dp <;>
      rw [hp1, hp2] at h
  · simp at h
  · simp at h
  · simp at h
  · simp only [Except.ok.injEq] at h
    subst h
    exact ⟨rfl, rfl, rfl, rfl⟩

end Writer

/-! ## Claims -/

/-- C1: evaluation of the code at the failing input. A batch holding
one message that matches the enabled threshold-1 rule dies with
`RuntimeError("This event loop is already running")` raised inside the
threshold check (worker.py:275) before the insert and XACK blocks are
ever reached, so nothing is inserted and no id is acknowledged; and any
batch iteration that does complete (none of its events reach the
check) acknowledges every consumed id although no alert was accumulated
and no insert was attempted — the insert-then-ack-on-success protocol
the claim describes does not exist in the code. -/
theorem C1_worker_dies_before_ack :
    StreamCorr.process_batch [StreamCorr.corrRule1]
        [("m1", [("x", "1"), ("user", "u1")])] 100 StreamCorr.emptyState
        (fun _ => "u0") false =
      .error "This event loop is already running" ∧
    (∀ (rules : List StreamCorr.StreamCorrRule) (batch : List (String × Event))
       (now : Rat) (st : StreamCorr.CorrState) (uuidOf : Nat → String)
       (insertOk : Bool) (r : StreamCorr.BatchResult),
       StreamCorr.process_batch rules batch now st uuidOf insertOk = .ok r →
       r.alerts = [] ∧ r.inserted = [] ∧ r.acked = batch.map Prod.fst) :=
  ⟨by decide,
   fun rules batch now st uuidOf insertOk r h =>
     ⟨(StreamCorr.process_batch_ok rules batch now st uuidOf insertOk r h).1,
      (StreamCorr.process_batch_ok rules batch now st uuidOf insertOk r h).2.1,
      (StreamCorr.process_batch_ok rules batch now st uuidOf insertOk r h).2.2.1⟩⟩

/-- C1, witness: the completion half of the theorem applied to a batch
whose single event matches no rule — the iteration completes and acks
the id with no insert attempted. -/
theorem C1_witness :
    StreamCorr.process_batch [StreamCorr.corrRule1] [("m1", [("y", "2")])] 100
        StreamCorr.emptyState (fun _ => "u0") true =
      .ok { state := StreamCorr.emptyState, alerts := [], inserted := [],
            acked := ["m1"] } ∧
    (({ state := StreamCorr.emptyState, alerts := [], inserted := [],
        acked := ["m1"] } : StreamCorr.BatchResult).alerts = [] ∧
     ({ state := StreamCorr.emptyState, alerts := [], inserted := [],
        acked := ["m1"] } : StreamCorr.BatchResult).inserted = [] ∧
     ({ state := StreamCorr.emptyState, alerts := [], inserted := [],
        acked := ["m1"] } : StreamCorr.BatchResult).acked =
       [("m1", [("y", "2")])].map Prod.fst) :=
  ⟨by decide,
   C1_worker_dies_before_ack.2 [StreamCorr.corrRule1] [("m1", [("y", "2")])] 100
     StreamCorr.emptyState (fun _ => "u0") true
     { state := StreamCorr.emptyState, alerts := [], inserted := [],
       acked := ["m1"] } (by decide)⟩

/-- C2: evaluation of the code at the failing input. Every invocation
of `_check_threshold_and_should_alert` — for any rule, entity, message
and state — raises `RuntimeError("This event loop is already running")`
at the pipeline call (worker.py:275), so the correlator never decides
to alert and no alert row is ever emitted; and the row builder that the
dead code would call sets `hits = rule.threshold` (not the current
window size — its own comment concedes the window is not re-read),
while `ts_first = ts - window_s` does hold of it. -/
theorem C2_no_alert_ever_emitted :
    (∀ (rule : StreamCorr.StreamCorrRule) (ek msg : String) (now : Rat)
       (st : StreamCorr.CorrState),
       StreamCorr.check_threshold_and_should_alert rule ek msg now st =
         .error "This event loop is already running") ∧
    (∀ (rules : List StreamCorr.StreamCorrRule) (batch : List (String × Event))
       (now : Rat) (st : StreamCorr.CorrState) (uuidOf : Nat → String)
       (insertOk : Bool) (r : StreamCorr.BatchResult),
       StreamCorr.process_batch rules batch now st uuidOf insertOk = .ok r →
       r.alerts = []) ∧
    (∀ (rule : StreamCorr.StreamCorrRule) (ek : String) (now : Rat) (uuid : String),
       (StreamCorr.build_alert_row rule ek now uuid).hits = rule.threshold ∧
       (StreamCorr.build_alert_row rule ek now uuid).ts_first =
         (StreamCorr.build_alert_row rule ek now uuid).ts - (rule.window_s : Int)) :=
  ⟨fun rule ek msg now st => StreamCorr.check_always_raises rule ek msg now st,
   fun rules batch now st uuidOf insertOk r h =>
     (StreamCorr.process_batch_ok rules batch now st uuidOf insertOk r h).1,
   fun _ _ _ _ => ⟨rfl, rfl⟩⟩

/-- C2, witness: the no-alerts half of the theorem applied to a
concretely completing batch (its event matches no rule). -/
theorem C2_witness :
    StreamCorr.process_batch [StreamCorr.corrRule1] [("m2", [("y", "2")])] 100
        StreamCorr.emptyState (fun _ => "u0") true =
      .ok { state := StreamCorr.emptyState, alerts := [], inserted := [],
            acked := ["m2"] } ∧
    ({ state := StreamCorr.emptyState, alerts := [], inserted := [],
       acked := ["m2"] } : StreamCorr.BatchResult).alerts = [] :=
  ⟨by decide,
   C2_no_alert_ever_emitted.2.1 [StreamCorr.corrRule1] [("m2", [("y", "2")])] 100
     StreamCorr.emptyState (fun _ => "u0") true
     { state := StreamCorr.emptyState, alerts := [], inserted := [],
       acked := ["m2"] } (by decide)⟩

/-- C3, counterexample: normalizing the raw event `{message: ""}` (no
`source_type` key, empty `message`) with a non-empty rule list yields
`event.provider = ""` and `event.original = ""` — refuting the claim
that both fields are always non-empty. -/
theorem C3_counterexample :
    NormalizerCore.apply_rules [NormalizerCore.emptyMappingRule] [("message", "")] =
        some [("event.provider", some ""), ("event.original", some "")] ∧
    (dictGet [("event.provider", some ""), ("event.original", some "")]
        "event.provider" : Option (Option String)) = some (some "") := by
  exact ⟨by decide, by decide⟩

/-- C3, amended: for every raw event and non-empty rule list the
normalizer produces a UEM dict in which `event.provider` and
`event.original` keys are always present; `event.provider` is non-empty
whenever the raw event carries a non-empty `source_type`, and
`event.original` is non-empty whenever the raw event either lacks the
`message` key or carries a non-empty `message` (with no `source_type`
the provider defaults to the empty string, and an empty `message`
value is copied verbatim). -/
theorem C3_amended_normalizer_defaults :
    ∀ (rules : List NormalizerCore.NormalizerRule) (raw : NormalizerCore.RawEvent),
      rules ≠ [] →
      ∃ u, NormalizerCore.apply_rules rules raw = some u ∧
        (dictGet u "event.provider").isSome ∧
        (dictGet u "event.original").isSome ∧
        (∀ st, dictGet raw "source_type" = some st → st ≠ "" →
           ∃ v, dictGet u "event.provider" = some (some v) ∧ v ≠ "") ∧
        ((dictGet raw "message" = none ∨
            (∃ m, dictGet raw "message" = some m ∧ m ≠ "")) →
           ∃ v, dictGet u "event.original" = some (some v) ∧ v ≠ "") := by
  intro rules raw hne
  match rules with
  | [] => exact absurd rfl hne
  | rule :: rest =>
      refine ⟨NormalizerCore.norm_defaults (NormalizerCore.apply_mapping rule raw) raw,
        rfl, ?_, ?_, ?_, ?_⟩
      · rw [NormalizerCore.norm_defaults_provider]
        by_cases hc : NormalizerCore.needs_default
            (dictGet (NormalizerCore.apply_mapping rule raw) "event.provider") = true
        · simp [hc]
        · obtain ⟨s, hs, hsne⟩ :=
            NormalizerCore.needs_default_false _ (by simpa using hc)
          rw [if_neg hc, hs]
          rfl
      · rw [NormalizerCore.norm_defaults_original]
        by_cases hc : NormalizerCore.needs_default
            (dictGet (NormalizerCore.apply_mapping rule raw) "event.original") = true
        · by_cases hm : (dictGet raw "message").isSome <;> simp [hc, hm]
        · obtain ⟨s, hs, hsne⟩ :=
            NormalizerCore.needs_default_false _ (by simpa using hc)
          rw [if_neg hc, hs]
          rfl
      · intro st hst hstne
        rw [NormalizerCore.norm_defaults_provider]
        by_cases hc : NormalizerCore.needs_default
            (dictGet (NormalizerCore.apply_mapping rule raw) "event.provider") = true
        · refine ⟨st, ?_, hstne⟩
          simp [hc, hst]
        · obtain ⟨v, hv, hvne⟩ :=
            NormalizerCore.needs_default_false _ (by simpa using hc)
          refine ⟨v, ?_, hvne⟩
          rw [if_neg hc, hv]
      · intro hmsg
        rw [NormalizerCore.norm_defaults_original]
        by_cases hc : NormalizerCore.needs_default
            (dictGet (NormalizerCore.apply_mapping rule raw) "event.original") = true
        · rcases hmsg with hnone | ⟨m, hm, hmne⟩
          · refine ⟨NormalizerCore.py_str_raw raw, ?_,
              NormalizerCore.py_str_raw_ne_empty raw⟩
            simp [hc, hnone]
          · refine ⟨m, ?_, hmne⟩
            simp [hc, hm]
        · obtain ⟨v, hv, hvne⟩ :=
            NormalizerCore.needs_default_false _ (by simpa using hc)
          refine ⟨v, ?_, hvne⟩
          rw [if_neg hc, hv]

/-- C3, witness: the amended theorem applied to one rule with an empty
mapping and the raw event `{source_type: "http_json", message: "x"}`. -/
theorem C3_witness :
    (([NormalizerCore.emptyMappingRule] : List NormalizerCore.NormalizerRule) ≠ []) ∧
    (∃ u, NormalizerCore.apply_rules [NormalizerCore.emptyMappingRule]
        [("source_type", "http_json"), ("message", "x")] = some u ∧
      (dictGet u "event.provider").isSome ∧
      (dictGet u "event.original").isSome ∧
      (∀ st, dictGet [("source_type", "http_json"), ("message", "x")] "source_type" =
          some st → st ≠ "" →
         ∃ v, dictGet u "event.provider" = some (some v) ∧ v ≠ "") ∧
      ((dictGet [("source_type", "http_json"), ("message", "x")] "message" = none ∨
          (∃ m, dictGet [("source_type", "http_json"), ("message", "x")] "message" =
            some m ∧ m ≠ "")) →
         ∃ v, dictGet u "event.original" = some (some v) ∧ v ≠ "")) :=
  ⟨by simp, C3_amended_normalizer_defaults [NormalizerCore.emptyMappingRule]
    [("source_type", "http_json"), ("message", "x")] (by simp)⟩

/-- C4, counterexample: rules `[tag(priority 1, tags ["a"]), drop
(priority 2)]` with both expressions matching the event `{x: "1"}`
produce decision `tag`, not `drop` — refuting the claim that any
matched drop rule forces decision `drop` (the earlier tag rule stops
iteration first). -/
theorem C4_counterexample :
    FilterWorker.apply_rules [FilterWorker.tagRuleA, FilterWorker.dropRuleB]
        [("x", "1")] = ("tag", [("x", "1"), ("tags", "a")]) ∧
    FilterCore.eval_expr FilterWorker.dropRuleB.expr_ast [("x", "1")] = true ∧
    FilterWorker.dropRuleB.action = "drop" ∧
    (FilterWorker.apply_rules [FilterWorker.tagRuleA, FilterWorker.dropRuleB]
        [("x", "1")]).1 ≠ "drop" := by
  exact ⟨by decide, by decide, rfl, by decide⟩

/-- C4, amended: the filter decision is that of the first rule in list
order whose AST is non-null, whose expression evaluates true, and whose
action is drop, tag or pass: drop yields decision `drop`; tag yields
decision `tag` with that rule's tags comma-joined and appended after a
non-empty pre-existing `tags` value (a tag rule with an empty tag list
yields `pass`); pass — and the absence of any such rule — yields
decision `pass` with the event unchanged. -/
theorem C4_amended_first_match :
    (∀ (pre : List FilterCore.FilterRule) (r : FilterCore.FilterRule)
       (post : List FilterCore.FilterRule) (event : Event),
       (∀ q ∈ pre, FilterWorker.rule_halts q event = false) →
       FilterWorker.rule_halts r event = true →
       ((r.action = "drop" →
           FilterWorker.apply_rules (pre ++ r :: post) event = ("drop", event)) ∧
        (r.action = "tag" → r.tags ≠ [] →
           FilterWorker.apply_rules (pre ++ r :: post) event =
             ("tag", dictSet event "tags"
                (match dictGet event "tags" with
                 | some ex => if ex ≠ "" then ex ++ "," ++ FilterWorker.joinTags r.tags
                              else FilterWorker.joinTags r.tags
                 | none => FilterWorker.joinTags r.tags))) ∧
        (r.action = "tag" → r.tags = [] →
           FilterWorker.apply_rules (pre ++ r :: post) event = ("pass", event)) ∧
        (r.action = "pass" →
           FilterWorker.apply_rules (pre ++ r :: post) event = ("pass", event)))) ∧
    (∀ (rules : List FilterCore.FilterRule) (event : Event),
       (∀ q ∈ rules, FilterWorker.rule_halts q event = false) →
       FilterWorker.apply_rules rules event = ("pass", event)) :=
  ⟨fun pre r post event hpre hr =>
     FilterWorker.apply_rules_first_halting pre r post event hpre hr,
   fun rules event h => FilterWorker.apply_rules_no_halting rules event h⟩

/-- C4, witness: the amended theorem applied with an empty prefix to
the matching drop rule — a matched drop rule first in order does yield
decision `drop` (spec scenario 4 with swapped priorities). -/
theorem C4_witness :
    FilterWorker.rule_halts FilterWorker.dropRuleB [("x", "1")] = true ∧
    FilterWorker.apply_rules [FilterWorker.dropRuleB] [("x", "1")] =
      ("drop", [("x", "1")]) :=
  ⟨by decide,
   (C4_amended_first_match.1 [] FilterWorker.dropRuleB [] [("x", "1")]
      (by simp) (by decide)).1 rfl⟩

/-- C5: evaluation of the code at the failing input. The first
threshold check of the spacing scenario (entity `u1` of the
threshold-1 rule at time 5) raises
`RuntimeError("This event loop is already running")` (worker.py:275)
and kills the worker, and in general every batch iteration that
completes carries no alert rows — so no alert is ever emitted and no
two consecutive emissions for the same `(rule, entity)` exist whose
spacing could be measured. -/
theorem C5_no_consecutive_emissions :
    StreamCorr.check_threshold_and_should_alert StreamCorr.corrRule1 "u1" "m1" 5
        StreamCorr.emptyState = .error "This event loop is already running" ∧
    StreamCorr.process_batch [StreamCorr.corrRule1]
        [("m1", [("x", "1"), ("user", "u1")])] 5 StreamCorr.emptyState
        (fun _ => "u0") true =
      .error "This event loop is already running" ∧
    (∀ (rules : List StreamCorr.StreamCorrRule) (batch : List (String × Event))
       (now : Rat) (st : StreamCorr.CorrState) (uuidOf : Nat → String)
       (insertOk : Bool) (r : StreamCorr.BatchResult),
       StreamCorr.process_batch rules batch now st uuidOf insertOk = .ok r →
       r.alerts = []) :=
  ⟨rfl, by decide,
   fun rules batch now st uuidOf insertOk r h =>
     (StreamCorr.process_batch_ok rules batch now st uuidOf insertOk r h).1⟩

/-- C5, witness: the no-alerts conjunct applied to a concretely
completing empty batch. -/
theorem C5_witness :
    StreamCorr.process_batch [StreamCorr.corrRule1] ([] : List (String × Event)) 15
        StreamCorr.emptyState (fun _ => "u0") true =
      .ok { state := StreamCorr.emptyState, alerts := [], inserted := [],
            acked := [] } ∧
    ({ state := StreamCorr.emptyState, alerts := [], inserted := [],
       acked := [] } : StreamCorr.BatchResult).alerts = [] :=
  ⟨by decide,
   C5_no_consecutive_emissions.2.2 [StreamCorr.corrRule1] [] 15
     StreamCorr.emptyState (fun _ => "u0") true
     { state := StreamCorr.emptyState, alerts := [], inserted := [],
       acked := [] } (by decide)⟩

/-- C6: in writer row construction `source.ip` / `destination.ip` are
converted from IPv4 dotted-quad strings to their 32-bit integer value
(any parsed quad gives `((a·256+b)·256+c)·256+d`, always below 2^32;
`"10.0.0.1"` yields 167772161; invalid or empty input yields 0), and
`source.port` / `destination.port` are parsed as integers with default
0 for a missing or empty field. -/
theorem C6_writer_conversions :
    (∀ (s : String) (a b c d : Nat), Writer.parseIPv4 s = some (a, b, c, d) →
       Writer.ipv4_to_int (some s) = ((a * 256 + b) * 256 + c) * 256 + d ∧
         a ≤ 255 ∧ b ≤ 255 ∧ c ≤ 255 ∧ d ≤ 255) ∧
    (∀ ip, Writer.ipv4_to_int ip < 4294967296) ∧
    Writer.ipv4_to_int (some "10.0.0.1") = 167772161 ∧
    Writer.ipv4_to_int (some "bad") = 0 ∧
    Writer.ipv4_to_int (some "") = 0 ∧
    Writer.ipv4_to_int none = 0 ∧
    Writer.parse_port none = .ok 0 ∧
    Writer.parse_port (some "") = .ok 0 ∧
    (∀ (s : String) (n : Int), Writer.py_int_parse s = some n → s ≠ "" →
       Writer.parse_port (some s) = .ok n) ∧
    (∀ (msg_id : String) (fields : Event) (row : Writer.Row),
       Writer.build_row msg_id fields = .ok row →
       row.src_ip = Writer.ipv4_to_int (dictGet fields "source.ip") ∧
       row.dst_ip = Writer.ipv4_to_int (dictGet fields "destination.ip") ∧
       Writer.parse_port (dictGet fields "source.port") = .ok row.src_port ∧
       Writer.parse_port (dictGet fields "destination.port") = .ok row.dst_port) :=
  ⟨fun s a b c d h => Writer.parseIPv4_value s a b c d h,
   Writer.ipv4_to_int_lt,
   by decide, by decide, by decide, by decide, rfl, rfl,
   fun s n hp hs => by simp [Writer.parse_port, hs, hp],
   fun msg_id fields row h => Writer.build_row_ip_ports msg_id fields row h⟩

/-- C6, witness: the conversion theorem applied to the concrete quad
`10.0.0.1` and to a concrete built row with port `443`. -/
theorem C6_witness :
    Writer.parseIPv4 "10.0.0.1" = some (10, 0, 0, 1) ∧
    Writer.ipv4_to_int (some "10.0.0.1") = ((10 * 256 + 0) * 256 + 0) * 256 + 1 ∧
    Writer.py_int_parse "443" = some 443 ∧
    Writer.parse_port (some "443") = .ok 443 :=
  ⟨by decide,
   (C6_writer_conversions.1 "10.0.0.1" 10 0 0 1 (by decide)).1,
   by decide,
   C6_writer_conversions.2.2.2.2.2.2.2.2.1 "443" 443 (by decide) (by decide)⟩

/-- C7: the first matching rule with action `tag` stops the filter
iteration — later rules, including later tag rules, are not applied
(the result does not depend on the rules after it) — its tags are
written comma-joined to the `tags` field, appended after any non-empty
pre-existing value with a comma separator, and the decision is `tag`;
in particular the two-tag-rule scenario yields decision `tag` with
`tags = "a"`. -/
theorem C7_tag_rule_stops :
    (FilterWorker.apply_rules [FilterWorker.tagRuleA, FilterWorker.tagRuleB]
        [("x", "1")] = ("tag", [("x", "1"), ("tags", "a")])) ∧
    (∀ (pre : List FilterCore.FilterRule) (r : FilterCore.FilterRule)
       (post : List FilterCore.FilterRule) (event : Event),
       (∀ q ∈ pre, FilterWorker.rule_halts q event = false) →
       FilterWorker.rule_halts r event = true →
       r.action = "tag" → r.tags ≠ [] →
       FilterWorker.apply_rules (pre ++ r :: post) event =
         ("tag", dictSet event "tags"
            (match dictGet event "tags" with
             | some ex => if ex ≠ "" then ex ++ "," ++ FilterWorker.joinTags r.tags
                          else FilterWorker.joinTags r.tags
             | none => FilterWorker.joinTags r.tags))) :=
  ⟨by decide,
   fun pre r post event hpre hr ht htne =>
     (FilterWorker.apply_rules_first_halting pre r post event hpre hr).2.1 ht htne⟩

/-- C7, witness: the stop-iteration theorem applied to `tagRuleA`
followed by `tagRuleB` on an event with a pre-existing `tags` value
`"z"`, giving `tags = "z,a"`. -/
theorem C7_witness :
    FilterWorker.rule_halts FilterWorker.tagRuleA [("x", "1"), ("tags", "z")] = true ∧
    FilterWorker.apply_rules [FilterWorker.tagRuleA, FilterWorker.tagRuleB]
        [("x", "1"), ("tags", "z")] = ("tag", [("x", "1"), ("tags", "z,a")]) :=
  ⟨by decide,
   (C7_tag_rule_stops.2 [] FilterWorker.tagRuleA [FilterWorker.tagRuleB]
       [("x", "1"), ("tags", "z")] (by simp) (by decide) rfl (by decide)).trans
     (by decide)⟩

/-- C8: the filter DSL parser builds the AST left-to-right with no
precedence distinction between `and` and `or`: any chain
`c1 OP1 c2 OP2 c3` parses as `OP2(OP1(c1, c2), c3)`; in particular
`event.provider == 'http_json' and event.category == 'test'` tokenizes
to `NAME OP STRING AND NAME OP STRING` and parses to
`And(Cmp(event.provider,==,http_json), Cmp(event.category,==,test))`. -/
theorem C8_parser_left_assoc :
    FilterCore.parse_expr FilterCore.exprExample =
      .ok (FilterCore.Ast.band
        (FilterCore.Ast.cmp "event.provider" "==" "http_json")
        (FilterCore.Ast.cmp "event.category" "==" "test")) ∧
    FilterCore.tokenize FilterCore.exprExample =
      .ok [FilterCore.Tok.name "event.provider", FilterCore.Tok.op "==",
           FilterCore.Tok.str "http_json", FilterCore.Tok.tand,
           FilterCore.Tok.name "event.category", FilterCore.Tok.op "==",
           FilterCore.Tok.str "test"] ∧
    (∀ (f1 f2 f3 o1 o2 o3 v1 v2 v3 : String) (b1 b2 : FilterCore.Tok),
       (o1 = "==" ∨ o1 = "!=") → (o2 = "==" ∨ o2 = "!=") →
       (o3 = "==" ∨ o3 = "!=") →
       (b1 = FilterCore.Tok.tand ∨ b1 = FilterCore.Tok.tor) →
       (b2 = FilterCore.Tok.tand ∨ b2 = FilterCore.Tok.tor) →
       FilterCore.parseToks
           [FilterCore.Tok.name f1, FilterCore.Tok.op o1, FilterCore.Tok.str v1, b1,
            FilterCore.Tok.name f2, FilterCore.Tok.op o2, FilterCore.Tok.str v2, b2,
            FilterCore.Tok.name f3, FilterCore.Tok.op o3, FilterCore.Tok.str v3] =
         .ok (FilterCore.binOf b2
           (FilterCore.binOf b1 (FilterCore.Ast.cmp f1 o1 v1)
             (FilterCore.Ast.cmp f2 o2 v2))
           (FilterCore.Ast.cmp f3 o3 v3))) :=
  ⟨by decide, by decide,
   fun f1 f2 f3 o1 o2 o3 v1 v2 v3 b1 b2 ho1 ho2 ho3 hb1 hb2 =>
     FilterCore.chain3_left_assoc f1 f2 f3 o1 o2 o3 v1 v2 v3 b1 b2
       ho1 ho2 ho3 hb1 hb2⟩

/-- C8, witness: the chain theorem applied to the concrete token chain
`a == '1' and b != '2' or c == '3'`, giving
`Or(And(Cmp(a,==,1), Cmp(b,!=,2)), Cmp(c,==,3))`. -/
theorem C8_witness :
    ("==" = "==" ∨ "==" = "!=") ∧
    FilterCore.parseToks
        [FilterCore.Tok.name "a", FilterCore.Tok.op "==", FilterCore.Tok.str "1",
         FilterCore.Tok.tand,
         FilterCore.Tok.name "b", FilterCore.Tok.op "!=", FilterCore.Tok.str "2",
         FilterCore.Tok.tor,
         FilterCore.Tok.name "c", FilterCore.Tok.op "==", FilterCore.Tok.str "3"] =
      .ok (FilterCore.Ast.bor
        (FilterCore.Ast.band (FilterCore.Ast.cmp "a" "==" "1")
          (FilterCore.Ast.cmp "b" "!=" "2"))
        (FilterCore.Ast.cmp "c" "==" "3")) :=
  ⟨Or.inl rfl,
   C8_parser_left_assoc.2.2 "a" "b" "c" "==" "!=" "==" "1" "2" "3"
     FilterCore.Tok.tand FilterCore.Tok.tor (Or.inl rfl) (Or.inr rfl) (Or.inl rfl)
     (Or.inl rfl) (Or.inr rfl)⟩

/-- C9, counterexample: `parse_expr "("` raises an unexpected-character
scanner error — an error cause missing from the claim's list (the input
is non-empty, contains no string literal, and never reaches the
comparison or trailing-token checks). -/
theorem C9_counterexample :
    FilterCore.parse_expr "(" = .error "Unexpected character in expr" ∧
    FilterCore.tokenize "(" = .error "Unexpected character in expr" := by
  exact ⟨by decide, by decide⟩

/-- C9, amended: `parse_expr` fails exactly when tokenization fails (an
unterminated single-quoted string literal or an unexpected character)
or the token list is empty or it does not match the grammar
`cmp ((and | or) cmp)*` (a malformed comparison or trailing tokens);
the listed error causes are each exhibited. During rule load every row
yields exactly one rule, with only a failed (or empty) expression
giving that rule a null AST. -/
theorem C9_amended_parse_errors :
    (∀ s, (∃ a, FilterCore.parse_expr s = .ok a) ↔
       (∃ toks, FilterCore.tokenize s = .ok toks ∧ toks ≠ [] ∧
          FilterCore.chainToks toks = true)) ∧
    FilterCore.parse_expr "" = .error "Empty expr" ∧
    FilterCore.parse_expr ("x == " ++ quoteStr ++ "a") =
      .error "Unterminated string literal in filter expr" ∧
    FilterCore.parse_expr "x ==" = .error "Invalid comparison in expr" ∧
    FilterCore.parse_expr ("x == " ++ quoted "a" ++ " y") =
      .error "Unexpected tokens at end of expr" ∧
    (∀ rows, FilterCore.load_filter_rules rows =
       rows.map (fun row =>
         { id := row.id, name := row.name, description := row.description,
           priority := row.priority, action := row.action, tags := row.tags,
           expr_text := row.expr,
           expr_ast := if row.expr ≠ "" then (FilterCore.parse_expr row.expr).toOption
                       else none })) := by
  refine ⟨?_, by decide, by decide, by decide, by decide,
    FilterCore.load_filter_rules_eq_map⟩
  intro s
  rcases ht : FilterCore.tokenize s with e | toks
  · simp [FilterCore.parse_expr, ht]
  · have hpe : FilterCore.parse_expr s = FilterCore.parseToks toks := by
      simp [FilterCore.parse_expr, ht]
    rw [hpe, FilterCore.parseToks_ok_iff]
    constructor
    · rintro ⟨h1, h2⟩
      exact ⟨toks, rfl, h1, h2⟩
    · rintro ⟨toks2, heq, h1, h2⟩
      injection heq with h3
      subst h3
      exact ⟨h1, h2⟩

/-- C10: the normalizer's `apply_rules` returns `None` exactly when the
loaded rule list is empty; with at least one rule every raw event
yields a UEM dict (mapping failures are absorbed as null values and the
required fields get defaults), so normalization itself never drops an
event. -/
theorem C10_normalizer_none_iff :
    ∀ (rules : List NormalizerCore.NormalizerRule) (raw : NormalizerCore.RawEvent),
      NormalizerCore.apply_rules rules raw = none ↔ rules = [] := by
  intro rules raw
  cases rules <;> simp [NormalizerCore.apply_rules]
